import Mathlib

/-!
Verification of the stock-bidding app against its specification.

The development shallowly embeds the hand-written logic of the repository:

* the order-book / leaderboard aggregation of
  `src/components/auction/OrderBook.tsx` and `src/components/auction/TopBids.tsx`,
* the real-time snapshot mapping of `firebaseService.subscribeToBids`
  (`src/services/firebase.ts`),
* bid placement and cancellation (`placeBid` in the auction context,
  `firebaseService.addBid` / `firebaseService.cancelBid`),
* the bid-form validation (`validateBid` in `BidForm.tsx`),
* the auction timer derivation (`getTimeRemaining` / `isAuctionActive`
  in the auction context and the state display of `Timer.tsx`),
* the WhatsApp invoice delivery dispatch (`whatsappService.sendInvoice`).

Conventions: JavaScript numbers are modelled as exact rationals (ℚ),
timestamps (milliseconds since the epoch, `Date.now()`) as integers (ℤ).
`Array.prototype.sort` is a stable sort (ECMAScript 2019), modelled by
the stable `List.insertionSort` of Mathlib; a JavaScript comparator `cmp` is
translated to the relation `fun a b => cmp a b ≤ 0`.  A JavaScript object
field that may be absent (`quantity?`, `status?`) is an `Option`.
-/

namespace StockBid

/-- The `type` field of a bid: buy or sell. -/
inductive BidType where
  | buy
  | sell
deriving DecidableEq, Repr

/-- The `status` field of a bid: active, cancelled or executed. -/
inductive BidStatus where
  | active
  | cancelled
  | executed
deriving DecidableEq, Repr

/-- A bid object as it exists at runtime in the client (`Bid` interface of
`src/types/index.ts` and of the component files).  `quantity` and `status`
are optional fields (`quantity?: number`, `status?: ...`); `none` models an
absent field. -/
structure Bid where
  id : String
  userId : String
  userName : String
  amount : ℚ
  quantity : Option ℕ := none
  type : BidType
  timestamp : ℤ
  stockSymbol : String
  status : Option BidStatus := none
deriving DecidableEq, Repr

/-- A bid document as stored in the `bids` collection of the document store
(written by `addBid` / `cancelBid` in `src/services/firebase.ts`).  Unlike
the client-side `Bid`, the document key (`docId`) is not a field of the
stored data. -/
structure BidDoc where
  docId : String
  userId : String
  userName : String
  amount : ℚ
  quantity : Option ℕ := none
  type : BidType
  timestamp : ℤ
  stockSymbol : String
  status : Option BidStatus := none
deriving DecidableEq, Repr

/-- JavaScript `x || 1` on an optional numeric field: both an absent field
and the (falsy) value `0` yield the default `1`.  Used for
`data.quantity || 1` and `bid.quantity || 1`. -/
def jsQtyOrOne : Option ℕ → ℕ
  | none => 1
  | some 0 => 1
  | some n => n

/-! ### Order-book aggregation (`OrderBook.tsx` lines 50-64) -/

/-- The active filter of `OrderBook.tsx` line 51:
keep the bids whose status is absent or active. -/
def obActive (bids : List Bid) : List Bid :=
  bids.filter fun b => b.status = none ∨ b.status = some BidStatus.active

/-- The buy-side comparator of `OrderBook.tsx` line 54,
`(a, b) => b.amount - a.amount`, as the relation `cmp a b ≤ 0`. -/
def buyLe (a b : Bid) : Prop := b.amount ≤ a.amount

/-- The sell-side comparator of `OrderBook.tsx` line 59,
`(a, b) => a.amount - b.amount`, as the relation `cmp a b ≤ 0`. -/
def sellLe (a b : Bid) : Prop := a.amount ≤ b.amount

instance : DecidableRel buyLe := fun a b =>
  inferInstanceAs (Decidable (b.amount ≤ a.amount))

instance : DecidableRel sellLe := fun a b =>
  inferInstanceAs (Decidable (a.amount ≤ b.amount))

instance : IsTotal Bid buyLe := ⟨fun a b => le_total b.amount a.amount⟩

instance : IsTrans Bid buyLe := ⟨fun _ _ _ h1 h2 => le_trans h2 h1⟩

instance : IsTotal Bid sellLe := ⟨fun a b => le_total a.amount b.amount⟩

instance : IsTrans Bid sellLe := ⟨fun _ _ _ h1 h2 => le_trans h1 h2⟩

/-- `OrderBook.tsx` lines 52-55: buy orders of the active bids, sorted by
amount descending (stable), truncated to the top 5. -/
def orderBookBuys (bids : List Bid) : List Bid :=
  ((((obActive bids).filter fun b => b.type = BidType.buy).insertionSort buyLe).take 5)

/-- `OrderBook.tsx` lines 57-60: sell orders of the active bids, sorted by
amount ascending (stable), truncated to the top 5. -/
def orderBookSells (bids : List Bid) : List Bid :=
  ((((obActive bids).filter fun b => b.type = BidType.sell).insertionSort sellLe).take 5)

/-! ### Leaderboard aggregation (`TopBids.tsx` lines 44-53) -/

/-- The filter of `TopBids.tsx` line 45:
keep the bids whose status is not cancelled. -/
def tbActive (bids : List Bid) : List Bid :=
  bids.filter fun b => b.status ≠ some BidStatus.cancelled

/-- The leaderboard comparator of `TopBids.tsx` lines 47-52: primary key
amount descending, secondary key timestamp ascending, as the relation
`cmp a b ≤ 0`. -/
def topLe (a b : Bid) : Prop :=
  if a.amount = b.amount then a.timestamp ≤ b.timestamp else b.amount ≤ a.amount

instance : DecidableRel topLe := fun a b => by
  unfold topLe; infer_instance

instance : IsTotal Bid topLe where
  total a b := by
    unfold topLe
    by_cases h : a.amount = b.amount
    · simp only [h, if_pos rfl, if_pos h.symm]
      exact le_total a.timestamp b.timestamp
    · rw [if_neg h, if_neg (Ne.symm h)]
      exact le_total b.amount a.amount

instance : IsTrans Bid topLe where
  trans a b c hab hbc := by
    unfold topLe at *
    by_cases hab1 : a.amount = b.amount
    · by_cases hbc1 : b.amount = c.amount
      · rw [if_pos (hab1.trans hbc1)]
        rw [if_pos hab1] at hab
        rw [if_pos hbc1] at hbc
        exact le_trans hab hbc
      · have hac : a.amount ≠ c.amount := hab1 ▸ hbc1
        rw [if_neg hac]
        rw [if_neg hbc1] at hbc
        exact hab1 ▸ hbc
    · by_cases hbc1 : b.amount = c.amount
      · have hac : a.amount ≠ c.amount := fun h => hab1 (h.trans hbc1.symm)
        rw [if_neg hac]
        rw [if_neg hab1] at hab
        exact hbc1 ▸ hab
      · rw [if_neg hab1] at hab
        rw [if_neg hbc1] at hbc
        by_cases hac : a.amount = c.amount
        · rw [if_pos hac]
          exact absurd (le_antisymm (hac ▸ hbc) hab) hab1
        · rw [if_neg hac]
          exact le_trans hbc hab

/-- `TopBids.tsx` lines 46-53: the leaderboard ranking, all non-cancelled
bids sorted by amount descending with timestamp-ascending tie-break,
truncated to the top 15. -/
def topBidsRank (bids : List Bid) : List Bid :=
  (((tbActive bids).insertionSort topLe).take 15)

/-! ### Real-time snapshot mapping (`firebase.ts` lines 448-492) -/

/-- The per-document mapping inside the `onSnapshot` callback of
`subscribeToBids` (`firebase.ts` lines 466-478).  The pushed object has
exactly the fields `id`, `userId`, `userName`, `amount`,
`quantity: data.quantity || 1`, `type`, `timestamp`, `stockSymbol`; in
particular the stored `status` field is not copied, so the resulting bid
has no `status` field. -/
def snapshotBid (d : BidDoc) : Bid :=
  { id := d.docId
    userId := d.userId
    userName := d.userName
    amount := d.amount
    quantity := some (jsQtyOrOne d.quantity)
    type := d.type
    timestamp := d.timestamp
    stockSymbol := d.stockSymbol
    status := none }

/-- The list of bids delivered to the subscription callback for one
snapshot of the store (`firebase.ts` lines 462-481). -/
def subscribeToBidsView (docs : List BidDoc) : List Bid :=
  docs.map snapshotBid

/-! ### Users, stock, auction state (`src/types/index.ts`, auction context) -/

/-- The authenticated user, restricted to the fields the modelled
operations read. -/
structure User where
  uid : String
  email : String
  displayName : String
  phoneNumber : Option String := none
deriving DecidableEq, Repr

/-- JavaScript fallback chain displayName, then email, then Anonymous: an empty
string is falsy. -/
def jsUserName (u : User) : String :=
  if u.displayName ≠ "" then u.displayName
  else if u.email ≠ "" then u.email
  else "Anonymous"

/-- The stock, restricted to the fields the modelled operations read. -/
structure Stock where
  symbol : String
  name : String
  currentPrice : ℚ
deriving DecidableEq, Repr

/-- The auction, restricted to the fields the modelled operations read
(`isActive`, `endTime`). -/
structure Auction where
  id : String
  endTime : ℤ
  isActive : Bool
deriving DecidableEq, Repr

/-- The slice of `AppState` read and written by the modelled operations. -/
structure AppState where
  user : Option User
  auction : Option Auction
  stock : Stock
  bids : List Bid
  userProfitLoss : ℚ

/-! ### Auction timer (auction context lines 377-384, `Timer.tsx`) -/

/-- `getTimeRemaining` of the auction context:
`if (!state.auction || !state.auction.isActive) return 0;
return Math.max(0, Math.floor((state.auction.endTime - Date.now()) / 1000));`.
`Math.floor` of a real quotient is floor division `Int.fdiv`. -/
def getTimeRemaining (auction : Option Auction) (now : ℤ) : ℤ :=
  match auction with
  | none => 0
  | some a => if a.isActive = false then 0 else max 0 (Int.fdiv (a.endTime - now) 1000)

/-- `isAuctionActive` of the auction context:
`Boolean(state.auction?.isActive && getTimeRemaining() > 0)`. -/
def isAuctionActive (auction : Option Auction) (now : ℤ) : Bool :=
  (match auction with | none => false | some a => a.isActive)
    && decide (0 < getTimeRemaining auction now)

/-- The display states of `Timer.tsx`: the ended state is shown when the
`isActive` prop is false, the critical state at ≤ 60 seconds remaining, the
warning state at ≤ 300 seconds, the normal state otherwise. -/
inductive TimerState where
  | normal
  | warning
  | critical
  | ended
deriving DecidableEq, Repr

/-- The status derivation of `Timer.tsx` (`getStatusText` / `getStatusColor`
with `isWarning`, `isCritical` from lines 24-28), with the `isActive` prop
wired to `isAuctionActive()` as in `App.tsx`.  A pure function of the
current time and the auction. -/
def timerDerivedState (auction : Option Auction) (now : ℤ) : TimerState :=
  if isAuctionActive auction now = false then TimerState.ended
  else if getTimeRemaining auction now ≤ 60 then TimerState.critical
  else if getTimeRemaining auction now ≤ 300 then TimerState.warning
  else TimerState.normal

/-! ### Reducer (auction context lines 63-67) -/

/-- The timestamp comparator of the `ADD_BID` reducer case,
`(a, b) => b.timestamp - a.timestamp`, as the relation `cmp a b ≤ 0`. -/
def tsDescLe (a b : Bid) : Prop := b.timestamp ≤ a.timestamp

instance : DecidableRel tsDescLe := fun a b =>
  inferInstanceAs (Decidable (b.timestamp ≤ a.timestamp))

instance : IsTotal Bid tsDescLe := ⟨fun a b => le_total b.timestamp a.timestamp⟩

instance : IsTrans Bid tsDescLe := ⟨fun _ _ _ h1 h2 => le_trans h2 h1⟩

/-- The `ADD_BID` case of `auctionReducer`:
`bids: [action.payload, ...state.bids].sort((a, b) => b.timestamp - a.timestamp)`. -/
def addBidReduce (payload : Bid) (bids : List Bid) : List Bid :=
  (payload :: bids).insertionSort tsDescLe

/-! ### Store-side bid management (`firebase.ts` lines 334-406) -/

/-- The document written by `addBid` (`firebase.ts` lines 338-345):
the spread of the bid with status set to active and a server timestamp, under the
fresh document key `docId`. -/
def addBidStoredDoc (bid : Bid) (docId : String) (serverNow : ℤ) : BidDoc :=
  { docId := docId
    userId := bid.userId
    userName := bid.userName
    amount := bid.amount
    quantity := bid.quantity
    type := bid.type
    timestamp := serverNow
    stockSymbol := bid.stockSymbol
    status := some BidStatus.active }

/-- The value returned by `addBid` on success (`firebase.ts` lines 358-363):
the spread of the bid with the fresh document id, status active, and the current client timestamp. -/
def addBidReturn (bid : Bid) (docId : String) (now : ℤ) : Bid :=
  { bid with id := docId, status := some BidStatus.active, timestamp := now }

/-- The bid store together with the per-user `activeBids` statistic
(`users/{uid}.activeBids`, updated through `updateUserStats`). -/
structure CancelStore where
  bids : List BidDoc
  activeBids : String → ℤ

/-- Document lookup by id in the bids collection (`getDoc`). -/
def findBidDoc (bids : List BidDoc) (bidId : String) : Option BidDoc :=
  bids.find? fun d => d.docId = bidId

/-- A bid document after the cancellation update (`firebase.ts` lines
392-396): `status` becomes cancelled. -/
def markCancelled (d : BidDoc) : BidDoc :=
  { d with status := some BidStatus.cancelled }

/-- `cancelBid` (`firebase.ts` lines 374-406): look the bid up, reject a
missing bid, a non-owner requester, or a non-active status; otherwise set
the status to cancelled and decrement the `activeBids` counter of the owner
(`updateUserStats` with increment -1). -/
def cancelBid (store : CancelStore) (bidId userId : String) : Except String CancelStore :=
  match findBidDoc store.bids bidId with
  | none => Except.error "Bid not found"
  | some d =>
    if d.userId ≠ userId then Except.error "You can only cancel your own bids"
    else if d.status ≠ some BidStatus.active then Except.error "Bid cannot be cancelled"
    else Except.ok
      { bids := store.bids.map fun b => if b.docId = bidId then markCancelled b else b
        activeBids := fun uid =>
          if uid = userId then store.activeBids uid - 1 else store.activeBids uid }

/-! ### Bid placement (auction context lines 484-587) -/

/-- Substring test on character lists, modelling JavaScript
`String.prototype.includes`. -/
def charsStartWith : List Char → List Char → Bool
  | _, [] => true
  | [], _ :: _ => false
  | c :: cs, p :: ps => c = p && charsStartWith cs ps

/-- Whether the pattern occurs anywhere in the list. -/
def charsContain (l pat : List Char) : Bool :=
  match l with
  | [] => charsStartWith [] pat
  | _ :: rest => charsStartWith l pat || charsContain rest pat

/-- JavaScript `s.includes(pat)`. -/
def strIncludes (s pat : String) : Bool :=
  charsContain s.toList pat.toList

/-- The profit/loss computation of `placeBid` (auction context lines
519-521 and 566-568):
`(currentPrice - amount) * quantity` for a buy,
`(amount - currentPrice) * quantity` for a sell. -/
def profitLossOf (type : BidType) (currentPrice amount quantity : ℚ) : ℚ :=
  match type with
  | BidType.buy => (currentPrice - amount) * quantity
  | BidType.sell => (amount - currentPrice) * quantity

/-- The bid object built by `placeBid` before the store insert (auction
context lines 503-510).  It has exactly the fields `userId`, `userName`,
`amount`, `type`, `timestamp`, `stockSymbol` (the id-less record type is modelled
with an empty `id`); in particular it has no `quantity` and no `status`
field. -/
def placeBidRecord (u : User) (stock : Stock) (amount : ℚ) (type : BidType) (now : ℤ) : Bid :=
  { id := ""
    userId := u.uid
    userName := jsUserName u
    amount := amount
    quantity := none
    type := type
    timestamp := now
    stockSymbol := stock.symbol
    status := none }

/-- The local fallback bid of the permission-error path (auction context
lines 552-561): locally generated id `local-` followed by the current
timestamp, status active, and again no `quantity` field. -/
def localDemoBid (u : User) (stock : Stock) (amount : ℚ) (type : BidType) (now : ℤ) : Bid :=
  { id := "local-" ++ toString now
    userId := u.uid
    userName := jsUserName u
    amount := amount
    quantity := none
    type := type
    timestamp := now
    stockSymbol := stock.symbol
    status := some BidStatus.active }

/-- Outcome of the store insert attempted by `placeBid`: either the fresh
document id, or the message of the error thrown by `addBid`
(which wraps the store message as `Failed to place bid: ...`). -/
inductive StoreResult where
  | ok (docId : String)
  | err (storeMessage : String)
deriving DecidableEq, Repr

/-- The errors `placeBid` can raise to its caller. -/
inductive PlaceError where
  | notAuthenticated
  | auctionNotActive
  | storeFailure (message : String)
deriving DecidableEq, Repr

/-- The observable outcome of a successful (or degraded) placement. -/
structure PlaceOutcome where
  savedBid : Bid
  profitLoss : ℚ
  newUserProfitLoss : ℚ
  invoiceDispatched : Bool
  demoMode : Bool
  bids : List Bid
deriving DecidableEq, Repr

/-- `placeBid` of the auction context (lines 484-587).  The guards reject
an unauthenticated user and an inactive auction before any state change.  On a
successful insert the saved bid is dispatched via `ADD_BID`, profit/loss is
computed and added to the cumulative total, and the WhatsApp invoice
dispatch is always attempted.  When the insert fails and the error message
includes the word permissions, a locally-scoped demo bid is created, the same
profit/loss math is applied, the invoice dispatch still runs, and no error
is raised; any other insert failure is re-thrown. -/
def placeBid (st : AppState) (amount : ℚ) (type : BidType) (quantity : ℚ)
    (now : ℤ) (store : StoreResult) : Except PlaceError PlaceOutcome :=
  match st.user with
  | none => Except.error PlaceError.notAuthenticated
  | some u =>
    if isAuctionActive st.auction now = false then Except.error PlaceError.auctionNotActive
    else
      match store with
      | StoreResult.ok docId =>
        Except.ok
          { savedBid := addBidReturn (placeBidRecord u st.stock amount type now) docId now
            profitLoss := profitLossOf type st.stock.currentPrice amount quantity
            newUserProfitLoss :=
              st.userProfitLoss + profitLossOf type st.stock.currentPrice amount quantity
            invoiceDispatched := true
            demoMode := false
            bids := addBidReduce
              (addBidReturn (placeBidRecord u st.stock amount type now) docId now) st.bids }
      | StoreResult.err storeMessage =>
        if strIncludes ("Failed to place bid: " ++ storeMessage) "permissions" then
          Except.ok
            { savedBid := localDemoBid u st.stock amount type now
              profitLoss := profitLossOf type st.stock.currentPrice amount quantity
              newUserProfitLoss :=
                st.userProfitLoss + profitLossOf type st.stock.currentPrice amount quantity
              invoiceDispatched := true
              demoMode := true
              bids := addBidReduce (localDemoBid u st.stock amount type now) st.bids }
        else Except.error (PlaceError.storeFailure ("Failed to place bid: " ++ storeMessage))

/-- The default value of the `quantity` parameter of `placeBid`
(`quantity: number = 10` in its signature). -/
def placeBidQuantityDefault : ℚ := 10

/-- The bids list after a placement attempt: the `ADD_BID` dispatch happens
only on the successful paths. -/
def bidsAfterPlace (st : AppState) (amount : ℚ) (type : BidType) (quantity : ℚ)
    (now : ℤ) (store : StoreResult) : List Bid :=
  match placeBid st amount type quantity now store with
  | Except.ok out => out.bids
  | Except.error _ => st.bids

/-! ### Bid-form validation (`BidForm.tsx` lines 420-475) -/

/-- `BidForm.tsx` line 420:
`minBid = highestBid ? highestBid.amount + minIncrement : currentPrice + minIncrement`. -/
def minBidOf (highestBid : Option Bid) (currentPrice minIncrement : ℚ) : ℚ :=
  match highestBid with
  | some hb => hb.amount + minIncrement
  | none => currentPrice + minIncrement

/-- The numeric core of `validateBid` (`BidForm.tsx` lines 426-475), on an
already-parsed amount and quantity: the checks are, in order, a positive
price, a positive quantity, the 10,000-share quantity cap, the minimum-bid
floor, the 1,000,000 price ceiling, and the 50,000,000 total-value ceiling;
`isValidBid` is true only when all pass. -/
def validateBid (amount : ℚ) (qty : ℤ) (minBid : ℚ) : Bool :=
  if amount ≤ 0 then false
  else if qty ≤ 0 then false
  else if 10000 < qty then false
  else if amount < minBid then false
  else if 1000000 < amount then false
  else if 50000000 < amount * (qty : ℚ) then false
  else true

/-! ### WhatsApp invoice delivery (`whatsapp.ts` lines 81-227) -/

/-- The three delivery strategies of `whatsappService`. -/
inductive Strategy where
  | backendApi
  | twilioDirect
  | simulation
deriving DecidableEq, Repr

/-- The observable result of a delivery attempt. -/
structure SendResult where
  success : Bool
  messageId : String
  simulated : Bool
  delayMs : ℕ
deriving DecidableEq, Repr

/-- A delivery run: the strategies attempted, in order, and the final
result. -/
structure SendTrace where
  attempted : List Strategy
  result : SendResult
deriving DecidableEq, Repr

/-- `simulateMessage` (`whatsapp.ts` lines 204-227): waits 800 ms, then
returns a successful response whose message id is the string simulated_
followed by the current timestamp. -/
def simulateMessage (now : ℤ) : SendResult :=
  { success := true
    messageId := "simulated_" ++ toString now
    simulated := true
    delayMs := 800 }

/-- `sendViaBackendAPI` (`whatsapp.ts` lines 115-150): try the relay
endpoint; on any failure fall back to `simulateMessage`. -/
def sendViaBackendAPI (backendOk : Bool) (mid : String) (now : ℤ) : SendTrace :=
  if backendOk then
    { attempted := [Strategy.backendApi]
      result := { success := true, messageId := mid, simulated := false, delayMs := 0 } }
  else
    { attempted := [Strategy.backendApi, Strategy.simulation]
      result := simulateMessage now }

/-- `sendTwilioMessage` (`whatsapp.ts` lines 155-199): try the direct
provider API; on any failure fall back to `simulateMessage`. -/
def sendTwilioMessage (twilioOk : Bool) (mid : String) (now : ℤ) : SendTrace :=
  if twilioOk then
    { attempted := [Strategy.twilioDirect]
      result := { success := true, messageId := mid, simulated := false, delayMs := 0 } }
  else
    { attempted := [Strategy.twilioDirect, Strategy.simulation]
      result := simulateMessage now }

/-- The service configuration read by the dispatch in `sendInvoice`. -/
structure WhatsAppConfig where
  useBackendApi : Bool
  isConfigured : Bool
deriving DecidableEq, Repr

/-- The strategy dispatch of `sendInvoice` (`whatsapp.ts` lines 95-101):
`if (this.useBackendApi) ... sendViaBackendAPI ...
else if (this.isConfigured) ... sendTwilioMessage ...
else ... simulateMessage ...`.  `backendOk` and `twilioOk` are oracles for
whether the respective network call would succeed. -/
def sendInvoice (cfg : WhatsAppConfig) (backendOk twilioOk : Bool)
    (mid : String) (now : ℤ) : SendTrace :=
  if cfg.useBackendApi then sendViaBackendAPI backendOk mid now
  else if cfg.isConfigured then sendTwilioMessage twilioOk mid now
  else { attempted := [Strategy.simulation], result := simulateMessage now }

/-! ### Concrete fixtures for the witnesses and counterexamples -/

/-- A concrete authenticated user. -/
def demoUser : User :=
  { uid := "u1", email := "one@example.com", displayName := "Trader One" }

/-- The default stock of the app (AAPL at 150.00). -/
def demoStock : Stock :=
  { symbol := "AAPL", name := "Apple Inc.", currentPrice := 150 }

/-- An auction that is still running at time 0 (five minutes remaining). -/
def liveAuction : Auction :=
  { id := "demo", endTime := 300000, isActive := true }

/-- An auction whose end time is one second in the past at time 0. -/
def endedAuction : Auction :=
  { id := "demo", endTime := -1000, isActive := true }

/-- App state with an authenticated user and a live auction. -/
def liveState : AppState :=
  { user := some demoUser
    auction := some liveAuction
    stock := demoStock
    bids := []
    userProfitLoss := 0 }

/-- App state with an authenticated user and an expired auction. -/
def endedState : AppState :=
  { liveState with auction := some endedAuction }

/-- A buy bid of amount 100 with the later timestamp 2. -/
def lateBuyBid : Bid :=
  { id := "late", userId := "u2", userName := "B", amount := 100
    type := BidType.buy, timestamp := 2, stockSymbol := "AAPL" }

/-- A buy bid of amount 100 with the earlier timestamp 1. -/
def earlyBuyBid : Bid :=
  { id := "early", userId := "u3", userName := "C", amount := 100
    type := BidType.buy, timestamp := 1, stockSymbol := "AAPL" }

/-- A stored bid document whose status is cancelled. -/
def cancelledDoc : BidDoc :=
  { docId := "b1", userId := "u1", userName := "Trader One", amount := 160
    quantity := some 10, type := BidType.buy, timestamp := 5, stockSymbol := "AAPL"
    status := some BidStatus.cancelled }

/-- A concrete highest bid of amount 151. -/
def bid151 : Bid :=
  { id := "h", userId := "u2", userName := "B", amount := 151
    type := BidType.buy, timestamp := 1, stockSymbol := "AAPL"
    status := some BidStatus.active }

/-- A stored active bid document owned by user `u1`. -/
def ownActiveDoc : BidDoc :=
  { docId := "b2", userId := "u1", userName := "Trader One", amount := 155
    quantity := some 2, type := BidType.buy, timestamp := 3, stockSymbol := "AAPL"
    status := some BidStatus.active }

/-- A concrete store holding `ownActiveDoc`, with every active-bid counter
at 3. -/
def demoCancelStore : CancelStore :=
  { bids := [ownActiveDoc], activeBids := fun _ => 3 }

/-! The theorems: shared helper lemmas first, then one theorem (plus
witness or counterexample) per claim. -/

/-- A floor quotient of a nonpositive number by 1000 is nonpositive. -/
theorem fdiv_thousand_nonpos (x : ℤ) (h : x ≤ 0) : Int.fdiv x 1000 ≤ 0 := by
  rcases lt_or_eq_of_le h with h1 | h1
  · exact le_of_lt (Int.fdiv_neg' h1 (by norm_num))
  · rw [h1]
    simp

/-- Once the end time has passed, no auction time remains. -/
theorem getTimeRemaining_eq_zero (a : Auction) (now : ℤ) (h : a.endTime ≤ now) :
    getTimeRemaining (some a) now = 0 := by
  show (if a.isActive = false then 0 else max 0 (Int.fdiv (a.endTime - now) 1000)) = 0
  by_cases ha : a.isActive = false
  · rw [if_pos ha]
  · rw [if_neg ha]
    have h2 : Int.fdiv (a.endTime - now) 1000 ≤ 0 :=
      fdiv_thousand_nonpos _ (by omega)
    omega

/-- Once the end time has passed, `isAuctionActive` is false. -/
theorem isAuctionActive_false_of_ended (a : Auction) (now : ℤ) (h : a.endTime ≤ now) :
    isAuctionActive (some a) now = false := by
  unfold isAuctionActive
  rw [getTimeRemaining_eq_zero a now h]
  simp

/-- `markCancelled` does not change the document key. -/
theorem markCancelled_docId (d : BidDoc) : (markCancelled d).docId = d.docId := rfl

/-- Updating the found document in place is visible through a fresh
lookup: the first match of the mapped list is the mapped first match. -/
theorem findBidDoc_map_update (bids : List BidDoc) (bidId : String) (d : BidDoc)
    (hd : findBidDoc bids bidId = some d) :
    findBidDoc (bids.map fun b => if b.docId = bidId then markCancelled b else b) bidId =
      some (markCancelled d) := by
  induction bids with
  | nil => simp [findBidDoc] at hd
  | cons b bs ih =>
    unfold findBidDoc at hd ⊢
    by_cases hb : b.docId = bidId
    · rw [List.find?_cons_of_pos _ (by simp [hb])] at hd
      rw [List.map_cons, if_pos hb,
        List.find?_cons_of_pos _ (by simp [markCancelled_docId, hb])]
      rw [Option.some_inj] at hd
      rw [hd]
    · rw [List.find?_cons_of_neg _ (by simp [hb])] at hd
      rw [List.map_cons, if_neg hb, List.find?_cons_of_neg _ (by simp [hb])]
      exact ih hd

/-- Claim C1 (amended).  For every list of bids the order-book buy side is sorted
by amount descending, the sell side by amount ascending, and the
leaderboard ranking of `TopBids` is sorted by amount descending with
equal-amount bids ordered earlier timestamp first.  (The order-book
rankings of `OrderBook.tsx` themselves apply no timestamp tie-break; see
the counterexample.) -/
theorem rank_sortedness (bids : List Bid) :
    (orderBookBuys bids).Pairwise (fun a b => b.amount ≤ a.amount) ∧
    (orderBookSells bids).Pairwise (fun a b => a.amount ≤ b.amount) ∧
    (topBidsRank bids).Pairwise (fun a b => b.amount ≤ a.amount) ∧
    (topBidsRank bids).Pairwise
      (fun a b => a.amount = b.amount → a.timestamp ≤ b.timestamp) := by
  refine ⟨?_, ?_, ?_, ?_⟩
  · exact (List.sorted_insertionSort buyLe _).sublist (List.take_sublist 5 _)
  · exact (List.sorted_insertionSort sellLe _).sublist (List.take_sublist 5 _)
  · refine List.Pairwise.imp ?_
      ((List.sorted_insertionSort topLe _).sublist (List.take_sublist 15 _))
    intro a b hab
    unfold topLe at hab
    by_cases h : a.amount = b.amount
    · exact le_of_eq h.symm
    · rwa [if_neg h] at hab
  · refine List.Pairwise.imp ?_
      ((List.sorted_insertionSort topLe _).sublist (List.take_sublist 15 _))
    intro a b hab h
    unfold topLe at hab
    rwa [if_pos h] at hab

/-- Claim C1, counterexample.  Two buy bids of equal amount, the later-timestamp
bid first in the input: the order-book buy ranking keeps the later bid
first, so the earlier-timestamp bid does not come first. -/
theorem rank_tie_counterexample :
    lateBuyBid.amount = earlyBuyBid.amount ∧
    earlyBuyBid.timestamp < lateBuyBid.timestamp ∧
    orderBookBuys [lateBuyBid, earlyBuyBid] = [lateBuyBid, earlyBuyBid] := by
  with_unfolding_all decide

/-- Claim C2 (code bug).  A stored bid with status cancelled still comes out
of the ranked order book computed from the live subscription, because the
snapshot mapping of `subscribeToBids` drops the `status` field: the bid
reaches the client with no status at all, passes the active filter, and the
full-history view cannot show it as cancelled either. -/
theorem cancelled_bid_reappears :
    cancelledDoc.status = some BidStatus.cancelled ∧
    (orderBookBuys (subscribeToBidsView [cancelledDoc])).map Bid.id = [cancelledDoc.docId] ∧
    (subscribeToBidsView [cancelledDoc]).map Bid.status = [none] := by
  with_unfolding_all decide

/-- Claim C10.  After any `ADD_BID` action the bids list of the resulting state
is sorted by timestamp in non-increasing order, for every payload and every
previous list: the reducer re-sorts the whole list. -/
theorem addBid_sorted (payload : Bid) (bids : List Bid) :
    (addBidReduce payload bids).Pairwise (fun a b => b.timestamp ≤ a.timestamp) :=
  List.sorted_insertionSort tsDescLe (payload :: bids)

/-- Claim C3.  Whenever a placement succeeds, the profit/loss of the outcome is
`(currentPrice - amount) * quantity` for a buy and
`(amount - currentPrice) * quantity` for a sell, and it is added to the
cumulative user profit/loss.  This covers both the normal and the degraded
path. -/
theorem placeBid_profitLoss (st : AppState) (amount : ℚ) (type : BidType)
    (quantity : ℚ) (now : ℤ) (store : StoreResult) (out : PlaceOutcome)
    (h : placeBid st amount type quantity now store = Except.ok out) :
    (type = BidType.buy →
      out.profitLoss = (st.stock.currentPrice - amount) * quantity) ∧
    (type = BidType.sell →
      out.profitLoss = (amount - st.stock.currentPrice) * quantity) ∧
    out.newUserProfitLoss = st.userProfitLoss + out.profitLoss := by
  unfold placeBid at h
  rcases hu : st.user with _ | u <;> rw [hu] at h
  · exact absurd h (by simp)
  · dsimp only at h
    by_cases ha : isAuctionActive st.auction now = false
    · rw [if_pos ha] at h
      exact absurd h (by simp)
    · rw [if_neg ha] at h
      rcases store with docId | storeMessage <;> dsimp only at h
      · rw [Except.ok.injEq] at h
        subst h
        refine ⟨fun hb => ?_, fun hs => ?_, rfl⟩
        · subst hb; rfl
        · subst hs; rfl
      · by_cases hp : strIncludes ("Failed to place bid: " ++ storeMessage) "permissions" = true
        · rw [if_pos hp, Except.ok.injEq] at h
          subst h
          refine ⟨fun hb => ?_, fun hs => ?_, rfl⟩
          · subst hb; rfl
          · subst hs; rfl
        · rw [if_neg hp] at h
          exact absurd h (by simp)

/-- Claim C3, witness.  A buy at 151.00 with quantity 10 against current price
150.00 yields profit/loss -10.00; a sell at 152.00 with quantity 5 yields
+10.00. -/
theorem placeBid_profitLoss_witness :
    (∃ out, placeBid liveState 151 BidType.buy 10 0 (StoreResult.ok "d1") = Except.ok out ∧
       out.profitLoss = -10 ∧ out.newUserProfitLoss = -10) ∧
    (∃ out, placeBid liveState 152 BidType.sell 5 0 (StoreResult.ok "d1") = Except.ok out ∧
       out.profitLoss = 10 ∧ out.newUserProfitLoss = 10) := by
  constructor
  · obtain ⟨out, hout⟩ :
        ∃ out, placeBid liveState 151 BidType.buy 10 0 (StoreResult.ok "d1") = Except.ok out :=
      ⟨_, rfl⟩
    obtain ⟨h1, _, h2⟩ := placeBid_profitLoss _ _ _ _ _ _ _ hout
    have h3 : out.profitLoss = -10 := (h1 rfl).trans (by with_unfolding_all decide)
    exact ⟨out, hout, h3, by rw [h2, h3]; with_unfolding_all decide⟩
  · obtain ⟨out, hout⟩ :
        ∃ out, placeBid liveState 152 BidType.sell 5 0 (StoreResult.ok "d1") = Except.ok out :=
      ⟨_, rfl⟩
    obtain ⟨_, h1, h2⟩ := placeBid_profitLoss _ _ _ _ _ _ _ hout
    have h3 : out.profitLoss = 10 := (h1 rfl).trans (by with_unfolding_all decide)
    exact ⟨out, hout, h3, by rw [h2, h3]; with_unfolding_all decide⟩

/-- Claim C4.  Bid validation rejects every amount strictly below the minimum-bid
threshold (highest bid plus increment, or current price plus increment
without a highest bid), whatever the quantity; and it accepts an amount
exactly at the threshold whenever the remaining checks (positive price,
quantity in [1, 10000], price and total-value ceilings) pass. -/
theorem validateBid_threshold (amount : ℚ) (qty : ℤ) (highestBid : Option Bid)
    (currentPrice minIncrement : ℚ) :
    (amount < minBidOf highestBid currentPrice minIncrement →
      validateBid amount qty (minBidOf highestBid currentPrice minIncrement) = false) ∧
    (amount = minBidOf highestBid currentPrice minIncrement →
      0 < amount → 1 ≤ qty → qty ≤ 10000 → amount ≤ 1000000 →
      amount * (qty : ℚ) ≤ 50000000 →
      validateBid amount qty (minBidOf highestBid currentPrice minIncrement) = true) := by
  constructor
  · intro h
    unfold validateBid
    split_ifs <;> rfl
  · intro heq h0 hq1 hq2 hc1 hc2
    unfold validateBid
    split_ifs with h1 h2 h3 h4 h5 h6
    · exact absurd h0 (not_lt.mpr h1)
    · exact absurd h2 (by omega)
    · exact absurd h3 (by omega)
    · rw [heq] at h4
      exact absurd h4 (lt_irrefl _)
    · exact absurd h5 (not_lt.mpr hc1)
    · exact absurd h6 (not_lt.mpr hc2)
    · rfl

/-- Claim C4, witness.  With highest bid 151 and increment 1 the threshold is 152:
a bid of 151.99 is rejected and a bid of exactly 152.00 (quantity 10) is
accepted. -/
theorem validateBid_threshold_witness :
    ((15199 : ℚ) / 100 < minBidOf (some bid151) 150 1 ∧
      validateBid ((15199 : ℚ) / 100) 10 (minBidOf (some bid151) 150 1) = false) ∧
    validateBid 152 10 (minBidOf (some bid151) 150 1) = true := by
  have hlt : (15199 : ℚ) / 100 < minBidOf (some bid151) 150 1 := by
    with_unfolding_all decide
  refine ⟨⟨hlt, (validateBid_threshold _ 10 _ 150 1).1 hlt⟩, ?_⟩
  exact (validateBid_threshold 152 10 (some bid151) 150 1).2
    (by with_unfolding_all decide) (by with_unfolding_all decide)
    (by decide) (by decide)
    (by with_unfolding_all decide) (by with_unfolding_all decide)

/-- Claim C5.  Cancellation is rejected whenever the requester does not own the
bid, regardless of its status; and every successful cancellation was
requested by the owner of a bid that was active, leaves that bid stored
with status cancelled, and decrements the active-bid counter of the owner by
one. -/
theorem cancelBid_spec (store : CancelStore) (bidId requester : String) :
    (∀ d, findBidDoc store.bids bidId = some d → d.userId ≠ requester →
      cancelBid store bidId requester = Except.error "You can only cancel your own bids") ∧
    (∀ next, cancelBid store bidId requester = Except.ok next →
      ∃ d, findBidDoc store.bids bidId = some d ∧ d.userId = requester ∧
        d.status = some BidStatus.active ∧
        findBidDoc next.bids bidId = some (markCancelled d) ∧
        next.activeBids requester = store.activeBids requester - 1) := by
  constructor
  · intro d hd hne
    unfold cancelBid
    rw [hd]
    simp only [if_pos hne]
  · intro next hnext
    unfold cancelBid at hnext
    rcases hd : findBidDoc store.bids bidId with _ | d <;> rw [hd] at hnext <;>
      dsimp only at hnext
    · exact absurd hnext (by simp)
    · by_cases h1 : d.userId ≠ requester
      · rw [if_pos h1] at hnext
        exact absurd hnext (by simp)
      · rw [if_neg h1] at hnext
        by_cases h2 : d.status ≠ some BidStatus.active
        · rw [if_pos h2] at hnext
          exact absurd hnext (by simp)
        · rw [if_neg h2] at hnext
          rw [Except.ok.injEq] at hnext
          refine ⟨d, rfl, not_ne_iff.mp h1, not_ne_iff.mp h2, ?_, ?_⟩
          · rw [← hnext]
            exact findBidDoc_map_update store.bids bidId d hd
          · rw [← hnext]
            simp

/-- Claim C5, witness.  A non-owner request on the stored active bid is rejected,
and the request of the owner succeeds: the bid is stored as cancelled and
the counter of the owner drops from 3 to 2. -/
theorem cancelBid_spec_witness :
    cancelBid demoCancelStore "b2" "u9" =
      Except.error "You can only cancel your own bids" ∧
    (∃ next, cancelBid demoCancelStore "b2" "u1" = Except.ok next ∧
      findBidDoc next.bids "b2" = some (markCancelled ownActiveDoc) ∧
      next.activeBids "u1" = 2) := by
  constructor
  · exact (cancelBid_spec demoCancelStore "b2" "u9").1 ownActiveDoc
      (by with_unfolding_all decide) (by decide)
  · obtain ⟨next, hnext⟩ :
        ∃ next, cancelBid demoCancelStore "b2" "u1" = Except.ok next := ⟨_, rfl⟩
    obtain ⟨d, hd, _, _, hfind, hcount⟩ :=
      (cancelBid_spec demoCancelStore "b2" "u1").2 next hnext
    have hdo : d = ownActiveDoc := by
      have : findBidDoc demoCancelStore.bids "b2" = some ownActiveDoc := by
        with_unfolding_all decide
      rw [this, Option.some_inj] at hd
      exact hd.symm
    refine ⟨next, hnext, hdo ▸ hfind, ?_⟩
    rw [hcount]
    with_unfolding_all decide

/-- Claim C6.  When the store insert fails with a permission error, placement
raises no error: it returns a locally-scoped bid whose id starts with
`local-`, whose status is active, applies the same profit/loss formula,
and still dispatches the invoice, in demo mode. -/
theorem placeBid_permission_fallback (st : AppState) (u : User) (amount : ℚ)
    (type : BidType) (quantity : ℚ) (now : ℤ) (storeMessage : String)
    (hu : st.user = some u)
    (ha : isAuctionActive st.auction now = true)
    (hp : strIncludes ("Failed to place bid: " ++ storeMessage) "permissions" = true) :
    ∃ out, placeBid st amount type quantity now (StoreResult.err storeMessage) =
        Except.ok out ∧
      out.demoMode = true ∧
      out.savedBid.id = "local-" ++ toString now ∧
      out.savedBid.status = some BidStatus.active ∧
      out.profitLoss = profitLossOf type st.stock.currentPrice amount quantity ∧
      out.invoiceDispatched = true := by
  unfold placeBid
  rw [hu]
  dsimp only
  rw [if_neg (by simp [ha])]
  rw [if_pos hp]
  exact ⟨_, rfl, rfl, rfl, rfl, rfl, rfl⟩

/-- Claim C6, witness.  A permission-denied insert at the live state still yields
a successful demo-mode placement with a local active bid and a dispatched
invoice. -/
theorem placeBid_permission_fallback_witness :
    ∃ out, placeBid liveState 151 BidType.buy 10 0
        (StoreResult.err "Missing or insufficient permissions.") = Except.ok out ∧
      out.demoMode = true ∧
      out.savedBid.id = "local-" ++ toString (0 : ℤ) ∧
      out.savedBid.status = some BidStatus.active ∧
      out.profitLoss = profitLossOf BidType.buy liveState.stock.currentPrice 151 10 ∧
      out.invoiceDispatched = true :=
  placeBid_permission_fallback liveState demoUser 151 BidType.buy 10 0
    "Missing or insufficient permissions." rfl (by with_unfolding_all decide)
    (by with_unfolding_all decide)

/-- Claim C7 (amended).  The delivery dispatch picks a single primary strategy by
configuration priority: the relay endpoint when enabled, else the direct
provider API when configured, else the simulation.  When the relay or the
direct call fails, it falls back directly to the simulation, which returns
a synthetic success after an 800-millisecond artificial delay; the direct
API is not attempted after a relay failure. -/
theorem sendInvoice_strategy (cfg : WhatsAppConfig) (backendOk twilioOk : Bool)
    (mid : String) (now : ℤ) :
    (sendInvoice cfg backendOk twilioOk mid now).attempted.head? =
      some (if cfg.useBackendApi then Strategy.backendApi
        else if cfg.isConfigured then Strategy.twilioDirect
        else Strategy.simulation) ∧
    (cfg.useBackendApi = true → backendOk = false →
      sendInvoice cfg backendOk twilioOk mid now =
        { attempted := [Strategy.backendApi, Strategy.simulation]
          result := simulateMessage now }) ∧
    (cfg.useBackendApi = false → cfg.isConfigured = true → twilioOk = false →
      sendInvoice cfg backendOk twilioOk mid now =
        { attempted := [Strategy.twilioDirect, Strategy.simulation]
          result := simulateMessage now }) ∧
    (cfg.useBackendApi = false → cfg.isConfigured = false →
      sendInvoice cfg backendOk twilioOk mid now =
        { attempted := [Strategy.simulation], result := simulateMessage now }) ∧
    (simulateMessage now).success = true ∧ (simulateMessage now).delayMs = 800 := by
  rcases cfg with ⟨ub, ic⟩
  cases ub <;> cases ic <;> cases backendOk <;> cases twilioOk <;>
    simp [sendInvoice, sendViaBackendAPI, sendTwilioMessage, simulateMessage]

/-- Claim C7, witness.  With the relay enabled and failing, delivery falls back to
the simulation, whose result is a synthetic success after 800 ms. -/
theorem sendInvoice_strategy_witness :
    sendInvoice ⟨true, true⟩ false true "m" 0 =
      { attempted := [Strategy.backendApi, Strategy.simulation]
        result := simulateMessage 0 } ∧
    (simulateMessage 0).success = true ∧ (simulateMessage 0).delayMs = 800 :=
  ⟨(sendInvoice_strategy ⟨true, true⟩ false true "m" 0).2.1 rfl rfl,
   (sendInvoice_strategy ⟨true, true⟩ false true "m" 0).2.2.2.2⟩

/-- Claim C7, counterexample.  Relay enabled, relay fails, direct API configured
and would succeed: the code never attempts the direct provider API and goes
straight to the simulation, so the claimed fallthrough order
relay-then-direct-then-simulation is false. -/
theorem sendInvoice_counterexample :
    (sendInvoice ⟨true, true⟩ false true "m" 0).attempted =
      [Strategy.backendApi, Strategy.simulation] ∧
    Strategy.twilioDirect ∉ (sendInvoice ⟨true, true⟩ false true "m" 0).attempted ∧
    (sendInvoice ⟨true, true⟩ false true "m" 0).result.simulated = true := by
  with_unfolding_all decide

/-- Claim C8.  For an authenticated user and an auction whose end time lies in
the past, the derived timer state is Ended, any placement attempt is
rejected with the auction-not-active error, and the bids list is unchanged
(no bid is recorded). -/
theorem auction_ended_rejects (st : AppState) (u : User) (a : Auction) (amount : ℚ)
    (type : BidType) (quantity : ℚ) (now : ℤ) (store : StoreResult)
    (hu : st.user = some u) (hau : st.auction = some a) (hend : a.endTime < now) :
    timerDerivedState st.auction now = TimerState.ended ∧
    placeBid st amount type quantity now store = Except.error PlaceError.auctionNotActive ∧
    bidsAfterPlace st amount type quantity now store = st.bids := by
  have hact : isAuctionActive st.auction now = false := by
    rw [hau]
    exact isAuctionActive_false_of_ended a now (le_of_lt hend)
  have hplace : placeBid st amount type quantity now store =
      Except.error PlaceError.auctionNotActive := by
    unfold placeBid
    rw [hu]
    dsimp only
    rw [if_pos hact]
  refine ⟨?_, hplace, ?_⟩
  · unfold timerDerivedState
    rw [if_pos hact]
  · unfold bidsAfterPlace
    rw [hplace]

/-- Claim C8, witness.  At time 0 with the auction ended at -1000 (one second in
the past), the timer shows Ended, placement errors with the
auction-not-active reason, and the bids list stays empty. -/
theorem auction_ended_rejects_witness :
    timerDerivedState endedState.auction 0 = TimerState.ended ∧
    placeBid endedState 151 BidType.buy 10 0 (StoreResult.ok "d1") =
      Except.error PlaceError.auctionNotActive ∧
    bidsAfterPlace endedState 151 BidType.buy 10 0 (StoreResult.ok "d1") =
      endedState.bids :=
  auction_ended_rejects endedState demoUser endedAuction 151 BidType.buy 10 0
    (StoreResult.ok "d1") rfl rfl (by decide)

/-- Claim C9 (code bug).  The bid record built by the orchestrator carries no
quantity field at all, even though the placement used quantity 10 for the
profit/loss; reading the stored document back through the snapshot mapping
yields quantity 1 regardless; and the signature default for an unspecified
quantity is 10, not 1. -/
theorem bid_quantity_dropped :
    ((placeBid liveState 151 BidType.buy 10 0 (StoreResult.ok "d1")).toOption.map
        fun out => out.savedBid.quantity) = some none ∧
    (snapshotBid (addBidStoredDoc (placeBidRecord demoUser demoStock 151 BidType.buy 0)
        "d1" 0)).quantity = some 1 ∧
    placeBidQuantityDefault = 10 := by
  refine ⟨?_, rfl, rfl⟩
  with_unfolding_all decide

end StockBid

